import Mathlib

/-!
Verification of the OPCUA_datacollection repository.

We shallowly embed the core of `OPCUA_handler.py` (the per-station monitor
loop `monitor_module`, the plant downtime aggregator `monitor_mes`, the
shutdown path `stop_all`) and of `logger.py` (the `PostgresLogger` table
management, the queue-backed logging API `log` / `log_station_state`, and
the state worker's upsert) as executable Lean functions, and prove the
spec's claims about them.

Conventions of the embedding:
- A remote read (`OPCUAFestoModule.get_value`) yields `Option Bool`:
  `none` models Python `None` (not connected, or a swallowed read error),
  `some b` a successfully read boolean.
- Python truthiness of such a value is `truthy`: only `some true` is truthy
  (`None` and `False` are both falsy in Python).
- Wall-clock timestamps (`datetime.now()`) are modelled as natural numbers
  (milliseconds); each loop iteration receives the time at which it runs,
  and monotonicity of real time is an explicit hypothesis where needed.
- A Python exception that escapes the loop body (the `TypeError` from
  `exit_timestamp - None`, and the `TypeError` from calling
  `PostgresLogger.log` with 8 positional data arguments against its 7
  parameters) is modelled by `Except`: the error value names the raising
  expression and carries the monitor state at the moment of the crash.
-/

namespace PGLogger

/-! ## Cycle-log schema and the `log` call arity (`_ensure_log_table`,
`log`, and the call in `monitor_module`) -/

/-- The columns of the per-station cycle-log table exactly as
`_ensure_log_table` creates it. -/
def log_table_columns : List String :=
  ["enter_time", "exit_time", "order_number", "part_number",
   "order_position", "operation_number", "resource_id"]

/-- The data parameters of `PostgresLogger.log(self, enter_time, exit_time,
order, part, pos, op, res)`. -/
def log_data_params : List String :=
  ["enter_time", "exit_time", "order", "part", "pos", "op", "res"]

/-- The positional arguments `monitor_module` passes at
`module.logger.log(enter_timestamp, exit_timestamp, cycle_time, order,
part, pos, op, res)`. -/
def monitor_log_call_args : List String :=
  ["enter_timestamp", "exit_timestamp", "cycle_time", "order", "part",
   "pos", "op", "res"]

/-- Calling a Python function: binding `args` to `params` positionally
raises `TypeError` (`none`) unless the counts match. -/
def bindCall (params args : List String) : Option (List (String × String)) :=
  if params.length = args.length then some (params.zip args) else none

end PGLogger

namespace OPCUA

/-- Python truthiness of an OPC-UA read result: `None` and `False` are
falsy, only `True` is truthy. -/
def truthy : Option Bool → Bool
  | some true => true
  | _ => false

/-- State of one station's monitor loop (`OPCUAHandler.monitor_module`):
the `last_state` variable, the `enter_timestamp` local, and whether the
order/part/position/operation/resource metadata locals have been assigned
(they are Python locals that start unbound). -/
structure MonState where
  last_state : Option Bool
  enter_timestamp : Option Nat
  meta_assigned : Bool
  deriving Repr, DecidableEq

/-- Events emitted by the monitor loop: a State Event
(`logger.log_station_state(current_state)` together with the shared-map
update) or a Cycle Event (a completed `logger.log(...)` call, carrying
enter timestamp, exit timestamp and the computed cycle time in ms). -/
inductive MonEvent where
  | state (v : Option Bool)
  | cycle (enter exit : Nat) (cycleTime : Int)
  deriving Repr, DecidableEq

/-- The two uncaught exceptions the body of `monitor_module` can raise:
`exit_timestamp - enter_timestamp` with `enter_timestamp = None`
(OPCUA_handler.py:186), and the `module.logger.log(...)` call binding 8
positional data arguments against `PostgresLogger.log`'s 7 data
parameters (OPCUA_handler.py:187 vs logger.py:151). -/
inductive PyError where
  | typeErrorSubNone
  | typeErrorLogArity
  deriving Repr, DecidableEq

/-- A crash of the monitor loop body: which expression raised, and the
values of the loop's locals at that moment (`last_state` not yet updated,
`enter_timestamp` not yet reset). -/
structure MonCrash where
  err : PyError
  state : MonState
  deriving Repr, DecidableEq

/-- One iteration of the `while` body of `monitor_module`, for a station
(`isEnd = true` means `module.module_name == "End Module"`).  The input is
the value read for `xReady` this iteration (`none` on a failed read) and
the current time.  Returns the new state and the events emitted this
iteration, or `Except.error` when the body raises.  In the exit branch the
`logger.log` call is modelled by its positional-argument binding: it
completes only if the argument count of the call in `monitor_module`
matches the parameter count of `PostgresLogger.log`, and raises
`TypeError` otherwise (events already enqueued earlier in the iteration
are not tracked for a crashing run). -/
def monitorStep (isEnd : Bool) (st : MonState) (reading : Option Bool) (t : Nat) :
    Except MonCrash (MonState × List MonEvent) :=
  if truthy st.last_state && !(truthy reading) then
    -- ENTER branch (True -> False): state event, record enter_timestamp,
    -- End Module additionally reads the order metadata here.
    .ok ({ last_state := reading, enter_timestamp := some t,
           meta_assigned := st.meta_assigned || isEnd },
         [MonEvent.state reading])
  else if !(truthy st.last_state) && truthy reading then
    -- EXIT branch (False -> True): state event, exit_timestamp := now,
    -- non-End stations read metadata here, then
    -- cycle_time = exit_timestamp - enter_timestamp (raises if None),
    -- then module.logger.log(enter_timestamp, exit_timestamp, cycle_time,
    -- order, part, pos, op, res).
    match st.enter_timestamp with
    | some e =>
        if PGLogger.monitor_log_call_args.length = PGLogger.log_data_params.length then
          .ok ({ last_state := reading, enter_timestamp := none,
                 meta_assigned := st.meta_assigned || !isEnd },
               [MonEvent.state reading, MonEvent.cycle e t ((t : Int) - (e : Int))])
        else
          .error { err := PyError.typeErrorLogArity,
                   state := { last_state := st.last_state, enter_timestamp := some e,
                              meta_assigned := st.meta_assigned || !isEnd } }
    | none =>
        .error { err := PyError.typeErrorSubNone,
                 state := { last_state := st.last_state, enter_timestamp := none,
                            meta_assigned := st.meta_assigned || !isEnd } }
  else
    .ok ({ st with last_state := reading }, [])

/-- Running the monitor loop over a finite list of (reading, time)
iterations, accumulating emitted events in order. -/
def monitorRun (isEnd : Bool) (st : MonState) :
    List (Option Bool × Nat) → Except MonCrash (MonState × List MonEvent)
  | [] => .ok (st, [])
  | (r, t) :: rest =>
      match monitorStep isEnd st r t with
      | .error crash => .error crash
      | .ok (st', evs) =>
          match monitorRun isEnd st' rest with
          | .error crash => .error crash
          | .ok (st'', evs') => .ok (st'', evs ++ evs')

/-- The state after the preamble of `monitor_module`: the initial read
establishes `last_state`, `enter_timestamp` starts as `None`, and the
metadata locals are unbound. -/
def monitorInit (v0 : Option Bool) : MonState :=
  { last_state := v0, enter_timestamp := none, meta_assigned := false }

/-- The initial State Event emitted by the preamble of `monitor_module`. -/
def monitorInitEvents (v0 : Option Bool) : List MonEvent :=
  [MonEvent.state v0]

/-- Number of Cycle Events in an event list. -/
def countCycles (evs : List MonEvent) : Nat :=
  evs.countP fun e => match e with | MonEvent.cycle _ _ _ => true | _ => false

/-- The truthiness sequence the loop actually compares: the initial reading
followed by the reading of each iteration (`last_state` is unconditionally
replaced by `current_state` at the end of every iteration). -/
def truthySeq (v0 : Option Bool) (trace : List (Option Bool × Nat)) : List Bool :=
  truthy v0 :: trace.map (fun p => truthy p.1)

/-- Position `i` of the sequence is a false→true ("exit") edge. -/
def exitEdgeAt (s : List Bool) (i : Nat) : Prop :=
  s.get? i = some false ∧ s.get? (i + 1) = some true

/-- Position `i` of the sequence is a true→false ("enter") edge. -/
def enterEdgeAt (s : List Bool) (i : Nat) : Prop :=
  s.get? i = some true ∧ s.get? (i + 1) = some false

/-! ## Plant downtime aggregator (`OPCUAHandler.monitor_mes`) -/

/-- The `all(state is True for state in states)` expression of
`monitor_mes`: only the Python value `True` counts, `False` and `None`
both block the all-idle determination. -/
def all_idle (states : List (Option Bool)) : Bool :=
  states.all fun s => s == some true

/-- The determination `monitor_mes` makes from one snapshot of the shared
station-state map: no determination at all when the snapshot is empty
(the loop just sleeps and continues), otherwise the value of `all_idle`. -/
def mesDetermination (states : List (Option Bool)) : Option Bool :=
  if states.isEmpty then none else some (all_idle states)

/-- State of the `monitor_mes` loop: the `last_all_idle` local (starts
`None`), the handler's `system_downtime_start` attribute, and the
`total_downtime` column of the singleton `system_info` row. -/
structure MesState where
  last_all_idle : Option Bool
  system_downtime_start : Option Nat
  total_downtime : Int
  deriving Repr, DecidableEq

/-- One iteration of the `while` body of `monitor_mes`: take a snapshot of
the shared map's values; if empty, sleep and continue; otherwise compute
`all_idle`, enter downtime (record `system_downtime_start`) on a rising
edge, and on a falling edge add the elapsed milliseconds to
`total_downtime` via `UPDATE system_info SET total_downtime =
total_downtime + delta` and clear `system_downtime_start`. -/
def mesStep (st : MesState) (snapshot : List (Option Bool)) (t : Nat) : MesState :=
  if snapshot.isEmpty then st
  else if all_idle snapshot && !(truthy st.last_all_idle) then
    -- ENTER DOWNTIME
    { st with system_downtime_start := some t,
              last_all_idle := some (all_idle snapshot) }
  else if !(all_idle snapshot) && truthy st.last_all_idle then
    -- EXIT DOWNTIME (guarded by `if self.system_downtime_start:`)
    match st.system_downtime_start with
    | some s =>
        { st with system_downtime_start := none,
                  total_downtime := st.total_downtime + ((t : Int) - (s : Int)),
                  last_all_idle := some (all_idle snapshot) }
    | none => { st with last_all_idle := some (all_idle snapshot) }
  else { st with last_all_idle := some (all_idle snapshot) }

/-- Running `monitor_mes` over a finite list of (snapshot, time) polls. -/
def mesRun (st : MesState) : List (List (Option Bool) × Nat) → MesState
  | [] => st
  | (snap, t) :: rest => mesRun (mesStep st snap t) rest

/-- The aggregator's state right after `OPCUAHandler.__init__`:
`last_all_idle = None`, `system_downtime_start = None`, and the freshly
inserted `system_info` row holds `total_downtime = 0`. -/
def mesInit : MesState :=
  { last_all_idle := none, system_downtime_start := none, total_downtime := 0 }

/-! ## Stop flags (`threading.Event` instances) -/

/-- The stop flags present in the running system: `OPCUAHandler.stop_event`
(checked by every `monitor_module` loop and by `monitor_mes`), and one
`PostgresLogger.stop_event` per station logger (checked by that logger's
`_worker_loop` and `_state_worker`). -/
structure StopFlags where
  handler_stop : Bool
  logger_stop : String → Bool

/-- `OPCUAHandler.stop_all`: sets the handler's `stop_event` (and then
disconnects the modules); it never touches any logger's `stop_event`. -/
def stop_all (f : StopFlags) : StopFlags :=
  { f with handler_stop := true }

/-- `PostgresLogger.stop` for the logger of the named station: sets that
logger's own `stop_event` only. -/
def logger_stop_op (name : String) (f : StopFlags) : StopFlags :=
  { f with logger_stop := fun n => if n = name then true else f.logger_stop n }

/-- The check at the top of `monitor_module` / `monitor_mes`:
`while not self.stop_event.is_set()` against the handler's flag.  `true`
means the loop exits at its next iteration boundary. -/
def monitor_loop_sees_stop (f : StopFlags) : Bool :=
  f.handler_stop

/-- The check at the top of `_worker_loop` / `_state_worker` of the named
station's logger: against that logger's own `stop_event`. -/
def worker_loop_sees_stop (name : String) (f : StopFlags) : Bool :=
  f.logger_stop name

end OPCUA

namespace PGLogger

/-! ## `logger.py`: queues, logging API, tables, state worker -/

/-- A `queue.Queue`: `maxsize = 0` means unbounded (`queue.Queue()`),
otherwise `put` blocks when `items.length` has reached `maxsize`. -/
structure PyQueue (α : Type) where
  maxsize : Nat
  items : List α
  deriving Repr, DecidableEq

/-- `queue.Queue.put`: `none` models the blocking/failing case (bounded
queue already full); on an unbounded queue it always appends. -/
def qput {α : Type} (q : PyQueue α) (x : α) : Option (PyQueue α) :=
  if q.maxsize = 0 ∨ q.items.length < q.maxsize then
    some { q with items := q.items ++ [x] }
  else none

/-- `queue.Queue()` as constructed in `PostgresLogger.__init__`:
unbounded, empty. -/
def mkQueue (α : Type) : PyQueue α := ⟨0, []⟩

/-- A Cycle Event as handed to `PostgresLogger.log`: the tuple the monitor
passes (enter time, exit time, and the five metadata fields, kept
opaque). -/
structure CycleRow where
  enter_time : Nat
  exit_time : Nat
  order : String
  part : String
  pos : String
  op : String
  res : String
  deriving Repr, DecidableEq

/-- The in-memory side of one `PostgresLogger`: its two queues and the
health of the Durable Sink (the database), which the logging API must not
depend on. -/
structure LoggerState where
  cycle_queue : PyQueue CycleRow
  state_queue : PyQueue (String × String)
  sink_ok : Bool
  deriving Repr, DecidableEq

/-- `PostgresLogger.log`: prints, then `self.cycle_queue.put(...)` inside a
`try/except` that swallows any queueing failure (so the caller never sees
an exception; on a swallowed failure the event is simply lost). -/
def log (st : LoggerState) (ev : CycleRow) : LoggerState :=
  match qput st.cycle_queue ev with
  | some q => { st with cycle_queue := q }
  | none => st

/-- `PostgresLogger.log_station_state`: prints, then
`self.state_queue.put((self.module_name, state))` with no `try/except`:
if `put` raised, the exception would reach the caller (`none`). -/
def log_station_state (st : LoggerState) (name state : String) :
    Option LoggerState :=
  match qput st.state_queue (name, state) with
  | some q => some { st with state_queue := q }
  | none => none

/-! ### Table management (`_reset_tables`, `_ensure_log_table`,
`_ensure_states_table`) -/

/-- `self.table_name = module_name.lower().replace(" ", "_") + "_logs"`.
Since the replaced pattern is the single character `" "`, the combined
`.lower().replace(" ", "_")` is a character-wise map: lower-case every
character, then turn spaces into underscores. -/
def table_name_of (module_name : String) : String :=
  String.mk (module_name.data.map fun c =>
    if c.toLower = ' ' then '_' else c.toLower) ++ "_logs"

/-- The database, seen as a map from table name to the table's rows (a row
is kept opaque as a list of column values). -/
abbrev Database : Type := String → Option (List (List String))

/-- `DROP TABLE IF EXISTS t`. -/
def dropTable (db : Database) (t : String) : Database :=
  fun u => if u = t then none else db u

/-- `CREATE TABLE IF NOT EXISTS t (...)`: creates `t` empty when absent,
leaves it (and its rows) alone when present. -/
def createTableIfAbsent (db : Database) (t : String) : Database :=
  fun u => if u = t then some ((db t).getD []) else db u

/-- `PostgresLogger._reset_tables`: drops ONLY this module's log table
(`DROP TABLE IF EXISTS {table_name} CASCADE`); it does not touch
`station_states`. -/
def reset_tables (module_name : String) (db : Database) : Database :=
  dropTable db (table_name_of module_name)

/-- `PostgresLogger._ensure_log_table`. -/
def ensure_log_table (module_name : String) (db : Database) : Database :=
  createTableIfAbsent db (table_name_of module_name)

/-- `PostgresLogger._ensure_states_table`. -/
def ensure_states_table (db : Database) : Database :=
  createTableIfAbsent db "station_states"

/-- The table-management part of `PostgresLogger.__init__`: optional reset,
then ensure this module's log table and the shared states table. -/
def logger_init_tables (module_name : String) (reset : Bool) (db : Database) :
    Database :=
  ensure_states_table
    (ensure_log_table module_name
      (if reset then reset_tables module_name db else db))

/-! ### State worker upsert (`_state_worker` against `station_states`) -/

/-- The `station_states` table: rows of (station_name, state), with
`station_name` the primary key (so well-formed tables have no duplicate
names). -/
abbrev StatesTable : Type := List (String × String)

/-- `INSERT INTO station_states ... ON CONFLICT (station_name) DO UPDATE
SET state = EXCLUDED.state`: overwrite the existing row's state when the
key is present, otherwise append a new row. -/
def upsert_station_state (tbl : StatesTable) (name state : String) :
    StatesTable :=
  if tbl.any (fun r => r.1 == name) then
    tbl.map fun r => if r.1 == name then (name, state) else r
  else
    tbl ++ [(name, state)]

/-- One queued State Event as the worker dequeues it: the station name and
the state value, where `none` models a Python `None` state (adapted to SQL
`NULL`) and `some s` a value rendered as text. -/
abbrev StateEventRow : Type := String × Option String

/-- The state worker processing one dequeued event: for a non-`None` state
the upsert commits; for a `None` state the insert violates
`station_states.state TEXT NOT NULL` (logger.py:120), the exception is
caught by the worker's `except` arm (logger.py:221-223), the event is
dropped, and the table is left unchanged. -/
def state_worker_insert (tbl : StatesTable) (name : String)
    (state : Option String) : StatesTable :=
  match state with
  | some s => upsert_station_state tbl name s
  | none => tbl

/-- The state worker draining a finite sequence of queued
(station_name, state) events into the table, in order. -/
def state_worker_drain (tbl : StatesTable) (events : List StateEventRow) :
    StatesTable :=
  events.foldl (fun t e => state_worker_insert t e.1 e.2) tbl

end PGLogger

/-! # Theorems -/

namespace OPCUA

@[simp] theorem truthy_none : truthy none = false := rfl

@[simp] theorem truthy_some_true : truthy (some true) = true := rfl

@[simp] theorem truthy_some_false : truthy (some false) = false := rfl

/-- The ENTER branch of the loop body. -/
theorem monitorStep_enter {isEnd : Bool} {st : MonState} {r : Option Bool}
    {t : Nat} (h1 : truthy st.last_state = true) (h2 : truthy r = false) :
    monitorStep isEnd st r t =
      .ok ({ last_state := r, enter_timestamp := some t,
             meta_assigned := st.meta_assigned || isEnd },
           [MonEvent.state r]) := by
  simp [monitorStep, h1, h2]

/-- The EXIT branch when an enter was previously recorded: the cycle time
is computed, but the `module.logger.log` call binds 8 positional data
arguments against 7 parameters and raises `TypeError`, with
`enter_timestamp` still recorded (never reset) and no Cycle Event
emitted. -/
theorem monitorStep_exit_logcall {isEnd : Bool} {st : MonState} {r : Option Bool}
    {t e : Nat} (h1 : truthy st.last_state = false) (h2 : truthy r = true)
    (he : st.enter_timestamp = some e) :
    monitorStep isEnd st r t =
      .error { err := PyError.typeErrorLogArity,
               state := { last_state := st.last_state, enter_timestamp := some e,
                          meta_assigned := st.meta_assigned || !isEnd } } := by
  simp [monitorStep, h1, h2, he, PGLogger.monitor_log_call_args,
        PGLogger.log_data_params]

/-- The EXIT branch with no recorded enter: the body raises at the
`exit_timestamp - enter_timestamp` subtraction. -/
theorem monitorStep_exit_none {isEnd : Bool} {st : MonState} {r : Option Bool}
    {t : Nat} (h1 : truthy st.last_state = false) (h2 : truthy r = true)
    (he : st.enter_timestamp = none) :
    monitorStep isEnd st r t =
      .error { err := PyError.typeErrorSubNone,
               state := { last_state := st.last_state, enter_timestamp := none,
                          meta_assigned := st.meta_assigned || !isEnd } } := by
  simp [monitorStep, h1, h2, he]

/-- No transition: only `last_state = current_state` is executed. -/
theorem monitorStep_no_edge {isEnd : Bool} {st : MonState} {r : Option Bool}
    {t : Nat} (h : truthy st.last_state = truthy r) :
    monitorStep isEnd st r t = .ok ({ st with last_state := r }, []) := by
  cases h1 : truthy st.last_state <;> rw [h1] at h <;>
    simp [monitorStep, h1, ← h]

/-- Unfolding one iteration of the monitor loop run. -/
theorem monitorRun_cons (isEnd : Bool) (st : MonState) (r : Option Bool) (t : Nat)
    (rest : List (Option Bool × Nat)) :
    monitorRun isEnd st ((r, t) :: rest) =
      match monitorStep isEnd st r t with
      | .error crash => .error crash
      | .ok (st1, evs1) =>
          match monitorRun isEnd st1 rest with
          | .error crash => .error crash
          | .ok (st2, evs2) => .ok (st2, evs1 ++ evs2) := rfl

/-- A run whose first step crashes crashes. -/
theorem monitorRun_cons_error {isEnd : Bool} {st : MonState} {r : Option Bool}
    {t : Nat} {c : MonCrash} {rest : List (Option Bool × Nat)}
    (h : monitorStep isEnd st r t = .error c) :
    monitorRun isEnd st ((r, t) :: rest) = .error c := by
  rw [monitorRun_cons, h]

/-- A run whose first step succeeds and whose remainder crashes crashes. -/
theorem monitorRun_cons_ok_error {isEnd : Bool} {st st1 : MonState}
    {r : Option Bool} {t : Nat} {evs1 : List MonEvent} {c : MonCrash}
    {rest : List (Option Bool × Nat)}
    (hstep : monitorStep isEnd st r t = .ok (st1, evs1))
    (hrest : monitorRun isEnd st1 rest = .error c) :
    monitorRun isEnd st ((r, t) :: rest) = .error c := by
  rw [monitorRun_cons, hstep]
  show (match monitorRun isEnd st1 rest with
      | Except.error crash => Except.error crash
      | Except.ok (st2, evs2) => Except.ok (st2, evs1 ++ evs2)) = Except.error c
  rw [hrest]

/-- A run whose first step and remainder both succeed concatenates the
emitted events. -/
theorem monitorRun_cons_ok_ok {isEnd : Bool} {st st1 st2 : MonState}
    {r : Option Bool} {t : Nat} {evs1 evs2 : List MonEvent}
    {rest : List (Option Bool × Nat)}
    (hstep : monitorStep isEnd st r t = .ok (st1, evs1))
    (hrest : monitorRun isEnd st1 rest = .ok (st2, evs2)) :
    monitorRun isEnd st ((r, t) :: rest) = .ok (st2, evs1 ++ evs2) := by
  rw [monitorRun_cons, hstep]
  show (match monitorRun isEnd st1 rest with
      | Except.error crash => Except.error crash
      | Except.ok (st2, evs2) => Except.ok (st2, evs1 ++ evs2))
    = Except.ok (st2, evs1 ++ evs2)
  rw [hrest]

theorem exitEdgeAt_cons_succ (b : Bool) (s : List Bool) (k : Nat) :
    exitEdgeAt (b :: s) (k + 1) ↔ exitEdgeAt s k := by
  unfold exitEdgeAt
  rw [List.get?_cons_succ, List.get?_cons_succ]

theorem enterEdgeAt_cons_succ (b : Bool) (s : List Bool) (k : Nat) :
    enterEdgeAt (b :: s) (k + 1) ↔ enterEdgeAt s k := by
  unfold enterEdgeAt
  rw [List.get?_cons_succ, List.get?_cons_succ]

theorem countCycles_state_cons (v : Option Bool) (evs : List MonEvent) :
    countCycles (MonEvent.state v :: evs) = countCycles evs := by
  simp [countCycles, List.countP_cons]

/-- An ok (non-crashing) run never emits a Cycle Event: the only branch
that would emit one is the exit branch with a recorded enter, and there
the `module.logger.log` call raises `TypeError` before the event reaches
the queue. -/
theorem monitorRun_ok_no_cycles (isEnd : Bool) (trace : List (Option Bool × Nat)) :
    ∀ (st st' : MonState) (evs : List MonEvent),
      monitorRun isEnd st trace = .ok (st', evs) → countCycles evs = 0 := by
  induction trace with
  | nil =>
      intro st st' evs hok
      simp only [monitorRun, Except.ok.injEq, Prod.mk.injEq] at hok
      rw [← hok.2]
      rfl
  | cons p rest ih =>
      intro st st' evs hok
      obtain ⟨r, t⟩ := p
      cases h1 : truthy st.last_state <;> cases h2 : truthy r
      · cases hrest : monitorRun isEnd { st with last_state := r } rest with
        | error c =>
            rw [monitorRun_cons_ok_error (monitorStep_no_edge (h1.trans h2.symm)) hrest]
              at hok
            simp at hok
        | ok q =>
            obtain ⟨st2, evs2⟩ := q
            rw [monitorRun_cons_ok_ok (monitorStep_no_edge (h1.trans h2.symm)) hrest]
              at hok
            simp only [List.nil_append, Except.ok.injEq, Prod.mk.injEq] at hok
            rw [← hok.2]
            exact ih _ st2 evs2 hrest
      · cases he : st.enter_timestamp with
        | none =>
            rw [monitorRun_cons_error (monitorStep_exit_none h1 h2 he)] at hok
            simp at hok
        | some e =>
            rw [monitorRun_cons_error (monitorStep_exit_logcall h1 h2 he)] at hok
            simp at hok
      · cases hrest : monitorRun isEnd
            { last_state := r, enter_timestamp := some t,
              meta_assigned := st.meta_assigned || isEnd } rest with
        | error c =>
            rw [monitorRun_cons_ok_error (monitorStep_enter h1 h2) hrest] at hok
            simp at hok
        | ok q =>
            obtain ⟨st2, evs2⟩ := q
            rw [monitorRun_cons_ok_ok (monitorStep_enter h1 h2) hrest] at hok
            simp only [Except.ok.injEq, Prod.mk.injEq] at hok
            rw [← hok.2]
            rw [List.cons_append, List.nil_append, countCycles_state_cons]
            exact ih _ st2 evs2 hrest
      · cases hrest : monitorRun isEnd { st with last_state := r } rest with
        | error c =>
            rw [monitorRun_cons_ok_error (monitorStep_no_edge (h1.trans h2.symm)) hrest]
              at hok
            simp at hok
        | ok q =>
            obtain ⟨st2, evs2⟩ := q
            rw [monitorRun_cons_ok_ok (monitorStep_no_edge (h1.trans h2.symm)) hrest]
              at hok
            simp only [List.nil_append, Except.ok.injEq, Prod.mk.injEq] at hok
            rw [← hok.2]
            exact ih _ st2 evs2 hrest

/-- C1 (code bug): the claim describes what `monitor_module` clearly
intends (it computes `cycle_time` and calls `logger.log` with it), but the
code can never emit a Cycle Event: on the first false→true transition
after a recorded enter, the `module.logger.log` call binds 8 positional
data arguments against `PostgresLogger.log`'s 7 parameters and raises
`TypeError` (the bug recorded by C3), killing the monitor thread — shown
concretely on the readiness trace True, False@1000ms, True@2000ms — and in
general every non-crashing run emits zero Cycle Events. -/
theorem no_cycle_event_ever_emitted :
    (∃ crash, monitorRun false (monitorInit (some true))
        [(some false, 1000), (some true, 2000)] = .error crash ∧
      crash.err = PyError.typeErrorLogArity ∧
      crash.state.enter_timestamp = some 1000) ∧
    (∀ (isEnd : Bool) (st st' : MonState) (trace : List (Option Bool × Nat))
        (evs : List MonEvent),
      monitorRun isEnd st trace = .ok (st', evs) → countCycles evs = 0) := by
  refine ⟨⟨_, rfl, rfl, rfl⟩,
          fun isEnd st st' trace evs hok =>
            monitorRun_ok_no_cycles isEnd trace st st' evs hok⟩

/-- Witness for C1: the crash on the concrete trace, and the zero-cycle
fact instantiated at a concrete non-crashing run. -/
theorem no_cycle_event_ever_emitted_witness :
    (∃ crash, monitorRun false (monitorInit (some true))
        [(some false, 1000), (some true, 2000)] = .error crash ∧
      crash.err = PyError.typeErrorLogArity ∧
      crash.state.enter_timestamp = some 1000) ∧
    countCycles [] = 0 :=
  ⟨no_cycle_event_ever_emitted.1,
   no_cycle_event_ever_emitted.2 false (monitorInit none) (monitorInit none)
     [] [] rfl⟩

/-- If the first transition the loop observes is false→true, the run
crashes at the `exit_timestamp - enter_timestamp` subtraction with
`enter_timestamp` still empty (and the metadata locals still exactly as
they started). -/
theorem monitorRun_first_exit_crashes (isEnd : Bool)
    (trace : List (Option Bool × Nat)) :
    ∀ (st : MonState) (i : Nat),
      st.enter_timestamp = none →
      exitEdgeAt (truthy st.last_state :: trace.map fun p => truthy p.1) i →
      (∀ j < i,
        ¬ enterEdgeAt (truthy st.last_state :: trace.map fun p => truthy p.1) j ∧
        ¬ exitEdgeAt (truthy st.last_state :: trace.map fun p => truthy p.1) j) →
      ∃ crash, monitorRun isEnd st trace = .error crash ∧
        crash.err = PyError.typeErrorSubNone ∧
        crash.state.enter_timestamp = none ∧
        crash.state.meta_assigned = (st.meta_assigned || !isEnd) := by
  induction trace with
  | nil =>
      intro st i _ hex _
      exfalso
      rcases hex with ⟨_, hx2⟩
      simp at hx2
  | cons p rest ih =>
      intro st i hen hex hfirst
      obtain ⟨r, t⟩ := p
      rcases i with _ | j
      · rcases hex with ⟨hx1, hx2⟩
        have h1 : truthy st.last_state = false := by simpa using hx1
        have h2 : truthy r = true := by simpa using hx2
        exact ⟨_, monitorRun_cons_error (monitorStep_exit_none h1 h2 hen),
               rfl, rfl, rfl⟩
      · have hno := hfirst 0 (Nat.succ_pos j)
        have heq : truthy st.last_state = truthy r := by
          rcases hno with ⟨hne, hxe⟩
          cases h1 : truthy st.last_state <;> cases h2 : truthy r
          · rfl
          · exact absurd ⟨by simp [h1], by simp [h2]⟩ hxe
          · exact absurd ⟨by simp [h1], by simp [h2]⟩ hne
          · rfl
        have hex' : exitEdgeAt
            (truthy ({ st with last_state := r } : MonState).last_state ::
              rest.map fun p => truthy p.1) j :=
          (exitEdgeAt_cons_succ _ _ j).mp hex
        have hfirst' : ∀ k < j,
            ¬ enterEdgeAt
              (truthy ({ st with last_state := r } : MonState).last_state ::
                rest.map fun p => truthy p.1) k ∧
            ¬ exitEdgeAt
              (truthy ({ st with last_state := r } : MonState).last_state ::
                rest.map fun p => truthy p.1) k := by
          intro k hk
          have hjk := hfirst (k + 1) (Nat.succ_lt_succ hk)
          exact ⟨fun hc => hjk.1 ((enterEdgeAt_cons_succ _ _ k).mpr hc),
                 fun hc => hjk.2 ((exitEdgeAt_cons_succ _ _ k).mpr hc)⟩
        obtain ⟨crash, hcr, hcerr, hcen, hcmeta⟩ :=
          ih { st with last_state := r } j hen hex' hfirst'
        exact ⟨crash, monitorRun_cons_ok_error (monitorStep_no_edge heq) hcr,
               hcerr, hcen, hcmeta⟩

/-- C10: if the first transition the monitor loop observes is false→true
(no prior true→false since the loop started), the exit branch runs with
`enter_timestamp` still `None` and the run crashes on the
`exit_timestamp - enter_timestamp` subtraction — the absent operand — with
the metadata locals of the terminal-step station never assigned; and at
the step level, any iteration observing a false→true edge with no
recorded enter raises exactly that subtraction `TypeError`. -/
theorem exit_branch_requires_recorded_enter (isEnd : Bool) (v0 : Option Bool)
    (trace : List (Option Bool × Nat)) (i : Nat)
    (hex : exitEdgeAt (truthySeq v0 trace) i)
    (hfirst : ∀ j < i, ¬ enterEdgeAt (truthySeq v0 trace) j ∧
        ¬ exitEdgeAt (truthySeq v0 trace) j) :
    (∃ crash, monitorRun isEnd (monitorInit v0) trace = .error crash ∧
        crash.err = PyError.typeErrorSubNone ∧
        crash.state.enter_timestamp = none ∧
        (isEnd = true → crash.state.meta_assigned = false)) ∧
    (∀ (st : MonState) (r : Option Bool) (t : Nat),
        truthy st.last_state = false → truthy r = true →
        st.enter_timestamp = none →
        ∃ crash, monitorStep isEnd st r t = .error crash ∧
          crash.err = PyError.typeErrorSubNone ∧
          crash.state.enter_timestamp = none) := by
  refine ⟨?_, fun st r t h1 h2 he =>
    ⟨_, monitorStep_exit_none h1 h2 he, rfl, rfl⟩⟩
  obtain ⟨crash, hcr, hcerr, hcen, hcmeta⟩ :=
    monitorRun_first_exit_crashes isEnd trace (monitorInit v0) i rfl hex hfirst
  refine ⟨crash, hcr, hcerr, hcen, fun hEnd => ?_⟩
  rw [hcmeta, hEnd]
  rfl

/-- Witness for C10: initial reading false, then a true reading with no
prior enter: the run crashes at the subtraction with no enter timestamp
recorded. -/
theorem exit_branch_requires_recorded_enter_witness :
    (∃ crash, monitorRun true (monitorInit (some false)) [(some true, 3)]
        = .error crash ∧
      crash.err = PyError.typeErrorSubNone ∧
      crash.state.enter_timestamp = none ∧
      (true = true → crash.state.meta_assigned = false)) ∧
    (∀ (st : MonState) (r : Option Bool) (t : Nat),
        truthy st.last_state = false → truthy r = true →
        st.enter_timestamp = none →
        ∃ crash, monitorStep true st r t = .error crash ∧
          crash.err = PyError.typeErrorSubNone ∧
          crash.state.enter_timestamp = none) :=
  exit_branch_requires_recorded_enter true (some false) [(some true, 3)] 0
    ⟨rfl, rfl⟩ (fun j hj => absurd hj (Nat.not_lt_zero j))

/-- C5: the plant downtime aggregator determines "all idle" exactly when
the snapshot of the shared station-state map is non-empty and every value
in it is the boolean `true` (any `false` or `None` entry blocks the
determination); on an empty snapshot it makes no determination and the
loop iteration leaves the aggregator state untouched. -/
theorem mes_all_idle_characterization (s : List (Option Bool)) :
    (mesDetermination s = some true ↔ s ≠ [] ∧ ∀ v ∈ s, v = some true) ∧
    mesDetermination [] = none ∧
    (∀ st t, mesStep st [] t = st) := by
  refine ⟨?_, rfl, fun st t => rfl⟩
  rcases s with _ | ⟨a, s⟩
  · simp [mesDetermination]
  · simp [mesDetermination, all_idle, List.all_eq_true]

/-- Witness for C5 at a concrete snapshot. -/
theorem mes_all_idle_characterization_witness :
    mesDetermination [some true, some true] = some true :=
  (mes_all_idle_characterization [some true, some true]).1.mpr
    ⟨by decide, by decide⟩

/-- One aggregator iteration never decreases the persisted total, provided
any recorded downtime start lies in the past. -/
theorem mesStep_total_mono (st : MesState) (snap : List (Option Bool)) (t : Nat)
    (h : ∀ s, st.system_downtime_start = some s → s ≤ t) :
    st.total_downtime ≤ (mesStep st snap t).total_downtime := by
  unfold mesStep
  split
  · exact le_rfl
  split
  · exact le_rfl
  split
  · cases hs : st.system_downtime_start with
    | none => simp [hs]
    | some s =>
        have hst := h s hs
        simp only [hs]
        have h0 : (0 : Int) ≤ (t : Int) - (s : Int) := by
          omega
        omega
  · exact le_rfl

/-- Where a recorded downtime start can come from after one iteration:
either it was just set to the iteration's time, or it was already
recorded before. -/
theorem mesStep_start_cases (st : MesState) (snap : List (Option Bool)) (t : Nat)
    (s : Nat) (h : (mesStep st snap t).system_downtime_start = some s) :
    s = t ∨ st.system_downtime_start = some s := by
  unfold mesStep at h
  split at h
  · exact Or.inr h
  split at h
  · simp only [Option.some.injEq] at h
    exact Or.inl h.symm
  split at h
  · split at h
    · simp at h
    · exact Or.inr h
  · exact Or.inr h

/-- Running the aggregator over concatenated polls composes. -/
theorem mesRun_append (st : MesState) (a b : List (List (Option Bool) × Nat)) :
    mesRun st (a ++ b) = mesRun (mesRun st a) b := by
  induction a generalizing st with
  | nil => rfl
  | cons p rest ih =>
      obtain ⟨snap, t⟩ := p
      simp [mesRun, ih]

/-- A downtime start recorded after a run is either one of the run's poll
times or was recorded before the run. -/
theorem mesRun_start_cases (trace : List (List (Option Bool) × Nat)) :
    ∀ (st : MesState) (s : Nat), (mesRun st trace).system_downtime_start = some s →
      s ∈ trace.map Prod.snd ∨ st.system_downtime_start = some s := by
  induction trace with
  | nil => intro st s h; exact Or.inr h
  | cons p rest ih =>
      intro st s h
      obtain ⟨snap, t⟩ := p
      rcases ih (mesStep st snap t) s h with hmem | hcar
      · exact Or.inl (by rw [List.map_cons]; exact List.mem_cons_of_mem _ hmem)
      · rcases mesStep_start_cases st snap t s hcar with rfl | hc2
        · exact Or.inl (by rw [List.map_cons]; exact List.mem_cons_self _ _)
        · exact Or.inr hc2

/-- The persisted total never decreases over a run with monotone poll
times, as long as any already-recorded start precedes every poll. -/
theorem mesRun_total_mono (trace : List (List (Option Bool) × Nat)) :
    ∀ st : MesState,
      List.Pairwise (· ≤ ·) (trace.map Prod.snd) →
      (∀ s, st.system_downtime_start = some s → ∀ p ∈ trace, s ≤ p.2) →
      st.total_downtime ≤ (mesRun st trace).total_downtime := by
  induction trace with
  | nil => intro st _ _; exact le_rfl
  | cons p rest ih =>
      intro st hmono hinv
      obtain ⟨snap, t⟩ := p
      rw [List.map_cons, List.pairwise_cons] at hmono
      have h1 : st.total_downtime ≤ (mesStep st snap t).total_downtime :=
        mesStep_total_mono st snap t
          (fun s hs => hinv s hs (snap, t) (List.mem_cons_self _ _))
      have hinv' : ∀ s, (mesStep st snap t).system_downtime_start = some s →
          ∀ q ∈ rest, s ≤ q.2 := by
        intro s hs q hq
        rcases mesStep_start_cases st snap t s hs with rfl | hcar
        · exact hmono.1 q.2 (List.mem_map_of_mem Prod.snd hq)
        · exact hinv s hcar q (List.mem_cons_of_mem _ hq)
      exact le_trans h1 (ih (mesStep st snap t) hmono.2 hinv')

/-- C6: after initialization (`system_info` freshly holding total 0), the
persisted cumulative `total_downtime` is monotonically non-decreasing over
the run: along any monotone-time sequence of polls, the total after any
prefix is at most the total after the full run, and each individual
iteration either leaves the total alone or adds the non-negative elapsed
delta `now - downtime_start`. -/
theorem total_downtime_monotone (pre suf : List (List (Option Bool) × Nat))
    (hmono : List.Pairwise (· ≤ ·) ((pre ++ suf).map Prod.snd)) :
    (mesRun mesInit pre).total_downtime ≤
      (mesRun mesInit (pre ++ suf)).total_downtime ∧
    (∀ st snap t, (∀ s, st.system_downtime_start = some s → s ≤ t) →
      st.total_downtime ≤ (mesStep st snap t).total_downtime) := by
  refine ⟨?_, fun st snap t h => mesStep_total_mono st snap t h⟩
  rw [mesRun_append]
  rw [List.map_append, List.pairwise_append] at hmono
  apply mesRun_total_mono suf (mesRun mesInit pre) hmono.2.1
  intro s hs q hq
  rcases mesRun_start_cases pre (mesInit) s hs with hmem | hcar
  · exact hmono.2.2 s hmem q.2 (List.mem_map_of_mem Prod.snd hq)
  · simp [mesInit] at hcar

/-- Witness for C6: one enter-downtime poll then one exit-downtime poll
adds 4 ms to the total and never decreases it. -/
theorem total_downtime_monotone_witness :
    (mesRun mesInit [([some true], 1)]).total_downtime ≤
      (mesRun mesInit ([([some true], 1)] ++ [([some false], 5)])).total_downtime :=
  (total_downtime_monotone [([some true], 1)] [([some false], 5)] (by decide)).1

/-- C4 counterexample: `stop_all` sets only the handler's `stop_event`;
the flag a logger's cycle/state worker checks (that logger's own
`stop_event`) is still unset afterwards, so there is no single shared stop
flag whose raising makes the worker loops exit. -/
theorem stop_all_leaves_worker_flags_unset :
    monitor_loop_sees_stop (stop_all ⟨false, fun _ => false⟩) = true ∧
    worker_loop_sees_stop "end_module" (stop_all ⟨false, fun _ => false⟩) = false :=
  ⟨rfl, rfl⟩

/-- C4 amended: the handler's monitor loops (per-station and aggregator)
share the handler's `stop_event`, checked at the top of each iteration and
set by `stop_all`, so those loops exit within one polling interval; each
Event Logger's workers check that logger's own separate `stop_event`,
which `stop_all` leaves unchanged and only the logger's own `stop()`
sets. -/
theorem stop_flags_structure (f : StopFlags) (name : String) :
    monitor_loop_sees_stop (stop_all f) = true ∧
    worker_loop_sees_stop name (stop_all f) = worker_loop_sees_stop name f ∧
    worker_loop_sees_stop name (logger_stop_op name f) = true := by
  refine ⟨rfl, rfl, ?_⟩
  simp [worker_loop_sees_stop, logger_stop_op]

/-- C2 counterexample: with `last_state = True`, an iteration whose read
fails (`None`) is NOT treated as "no change": the ENTER branch fires, a
State Event (carrying `None`) is emitted, `enter_timestamp` is set, and
`last_state` changes from `True` to `None`. -/
theorem failed_read_fires_enter_branch :
    monitorStep false
        { last_state := some true, enter_timestamp := none, meta_assigned := false }
        none 5
      = .ok ({ last_state := none, enter_timestamp := some 5, meta_assigned := false },
             [MonEvent.state none]) ∧
    ([MonEvent.state none] : List MonEvent) ≠ [] ∧
    (none : Option Bool) ≠ some true :=
  ⟨monitorStep_enter rfl rfl, by simp, by simp⟩

/-- C2 amended: a failed read (`None`) never crashes the iteration, but it
is treated as a falsy reading, not as "no change": if `last_state` was
truthy the ENTER branch fires (a State Event carrying `None` is emitted
and `enter_timestamp` is set); if `last_state` was falsy no event is
emitted and `enter_timestamp` is untouched; in both cases `last_state`
becomes `None`. -/
theorem failed_read_is_falsy (isEnd : Bool) (st : MonState) (t : Nat) :
    (∃ out, monitorStep isEnd st none t = .ok out) ∧
    (truthy st.last_state = true →
      monitorStep isEnd st none t =
        .ok ({ last_state := none, enter_timestamp := some t,
               meta_assigned := st.meta_assigned || isEnd },
             [MonEvent.state none])) ∧
    (truthy st.last_state = false →
      monitorStep isEnd st none t = .ok ({ st with last_state := none }, [])) := by
  refine ⟨?_, fun h1 => monitorStep_enter h1 rfl,
          fun h1 => monitorStep_no_edge (by rw [h1, truthy_none])⟩
  cases h1 : truthy st.last_state
  · exact ⟨_, monitorStep_no_edge (by rw [h1, truthy_none])⟩
  · exact ⟨_, monitorStep_enter h1 rfl⟩

/-- Witness for the amended C2 at a concrete state. -/
theorem failed_read_is_falsy_witness :
    monitorStep false
        { last_state := some true, enter_timestamp := none, meta_assigned := false }
        none 7
      = .ok ({ last_state := none, enter_timestamp := some 7, meta_assigned := false },
             [MonEvent.state none]) :=
  (failed_read_is_falsy false
    { last_state := some true, enter_timestamp := none, meta_assigned := false } 7).2.1 rfl

end OPCUA

namespace PGLogger

/-- C3 (code bug): the cycle-log table `_ensure_log_table` creates has no
`cycle_time_ms` column, and `PostgresLogger.log` takes 7 data parameters
while `monitor_module` passes 8 positional arguments (including
`cycle_time`), so the call raises `TypeError` and the computed cycle time
is never persisted. -/
theorem cycle_log_schema_and_call_mismatch :
    "cycle_time_ms" ∉ log_table_columns ∧
    log_data_params.length = 7 ∧
    monitor_log_call_args.length = 8 ∧
    bindCall log_data_params monitor_log_call_args = none := by
  refine ⟨by decide, rfl, rfl, ?_⟩
  simp [bindCall, log_data_params, monitor_log_call_args]

/-- C8: with `reset=true`, the table management of the Logger's
construction drops and recreates only this station's own cycle-log table:
any other table (in particular `station_states` and any other station's
log table) is left exactly as it was, both by `_reset_tables` itself and
by the whole reset/ensure sequence. -/
theorem reset_only_own_table (m : String) (db : Database) (t : String)
    (hown : t ≠ table_name_of m) :
    reset_tables m db t = db t ∧
    (t ≠ "station_states" → logger_init_tables m true db t = db t) ∧
    logger_init_tables m true db (table_name_of m) = some [] := by
  dsimp [reset_tables, logger_init_tables, ensure_log_table, ensure_states_table,
         dropTable, createTableIfAbsent]
  refine ⟨by simp [hown], fun hs => by simp [hown, hs], ?_⟩
  by_cases h : table_name_of m = "station_states"
  · simp [h]
  · simp [h]

/-- Witness for C8: the "End Module" logger's reset, against a database
holding a `station_states` table, leaves `station_states` unchanged and
ends with an empty `end_module_logs` table. -/
theorem reset_only_own_table_witness :
    reset_tables "End Module"
        (fun u => if u = "station_states" then some [["s"]] else none)
        "station_states"
      = (fun u => if u = "station_states" then some [["s"]] else none) "station_states" ∧
    ("station_states" ≠ "station_states" →
      logger_init_tables "End Module" true
          (fun u => if u = "station_states" then some [["s"]] else none)
          "station_states"
        = (fun u => if u = "station_states" then some [["s"]] else none) "station_states") ∧
    logger_init_tables "End Module" true
        (fun u => if u = "station_states" then some [["s"]] else none)
        (table_name_of "End Module")
      = some [] :=
  reset_only_own_table "End Module"
    (fun u => if u = "station_states" then some [["s"]] else none)
    "station_states" (by decide)

/-- C9: `log` and `log_station_state` only enqueue onto the in-memory
queues: on the unbounded queues the Logger constructs (`queue.Queue()`,
`maxsize = 0`) the `put` always succeeds immediately, so neither call
blocks or raises, the other queue is untouched, and the result is the same
whatever the state of the Durable Sink (`sink_ok` is neither read nor
written). -/
theorem logging_api_enqueue_only (st : LoggerState) (ev : CycleRow)
    (name state : String)
    (hc : st.cycle_queue.maxsize = 0) (hs : st.state_queue.maxsize = 0) :
    log st ev = { st with cycle_queue := ⟨0, st.cycle_queue.items ++ [ev]⟩ } ∧
    log_station_state st name state =
      some { st with state_queue := ⟨0, st.state_queue.items ++ [(name, state)]⟩ } ∧
    (log st ev).sink_ok = st.sink_ok ∧
    (mkQueue CycleRow).maxsize = 0 := by
  obtain ⟨⟨mc, ic⟩, ⟨ms, js⟩, sk⟩ := st
  dsimp at hc hs
  subst hc; subst hs
  refine ⟨?_, ?_, ?_, rfl⟩ <;> simp [log, log_station_state, qput, mkQueue]

/-- Upserting under a key not present in a cons cell's head commutes with
the cons. -/
theorem upsert_cons_ne {r : String × String} {tbl : StatesTable} {n s : String}
    (h : ¬ r.1 = n) :
    upsert_station_state (r :: tbl) n s = r :: upsert_station_state tbl n s := by
  have hb : (r.1 == n) = false := by simp [h]
  unfold upsert_station_state
  cases ha : tbl.any (fun x => x.1 == n) <;> simp [List.any_cons, hb, ha, h]

/-- The upsert's overwrite map is the identity on rows whose key differs. -/
theorem map_upsert_id {tbl : StatesTable} {n s : String}
    (h : ∀ x ∈ tbl, ¬ x.1 = n) :
    (tbl.map fun x => if x.1 == n then (n, s) else x) = tbl := by
  induction tbl with
  | nil => rfl
  | cons a tl ih =>
      rw [List.map_cons, if_neg (by simp [h a (List.mem_cons_self a tl)]),
          ih fun x hx => h x (List.mem_cons_of_mem a hx)]

/-- Upserting when the head row holds the key and no other row does:
the head row's state is overwritten in place. -/
theorem upsert_cons_eq {r : String × String} {tbl : StatesTable} {n s : String}
    (h : r.1 = n)
    (hrest : ∀ x ∈ tbl, ¬ x.1 = n) :
    upsert_station_state (r :: tbl) n s = (n, s) :: tbl := by
  have hb : (r.1 == n) = true := by simp [h]
  have hany : ((r :: tbl).any fun x => x.1 == n) = true := by
    simp [List.any_cons, hb]
  unfold upsert_station_state
  rw [if_pos hany, List.map_cons, if_pos hb, map_upsert_id hrest]

/-- The keys of the table after an upsert: unchanged on overwrite, the new
key appended on insert. -/
theorem upsert_keys (tbl : StatesTable) (n s : String) :
    (upsert_station_state tbl n s).map Prod.fst =
      if tbl.any (fun x => x.1 == n) then tbl.map Prod.fst
      else tbl.map Prod.fst ++ [n] := by
  unfold upsert_station_state
  cases ha : tbl.any (fun x => x.1 == n)
  · simp
  · rw [if_pos rfl, if_pos rfl, List.map_map]
    apply List.map_congr_left
    intro x _
    by_cases hb : x.1 = n
    · simp [hb]
    · simp [hb]

/-- The primary-key invariant (no two rows share a station name) is
preserved by the upsert. -/
theorem upsert_keys_nodup {tbl : StatesTable} {n s : String}
    (h : (tbl.map Prod.fst).Nodup) :
    ((upsert_station_state tbl n s).map Prod.fst).Nodup := by
  rw [upsert_keys]
  cases ha : tbl.any (fun x => x.1 == n)
  · rw [if_neg (by simp)]
    have hnone : ∀ x ∈ tbl, ¬ x.1 = n := by
      intro x hx hxn
      have hy : tbl.any (fun y => y.1 == n) = true :=
        List.any_eq_true.mpr ⟨x, hx, by simp [hxn]⟩
      rw [ha] at hy
      simp at hy
    refine List.Nodup.append h (List.nodup_singleton n) ?_
    intro a ha' hb
    simp only [List.mem_singleton] at hb
    subst hb
    rcases List.mem_map.mp ha' with ⟨x, hx, hfx⟩
    exact hnone x hx hfx
  · rw [if_pos rfl]; exact h

/-- On a table satisfying the primary-key invariant, the rows keyed by the
upserted name after an upsert are exactly the one new row. -/
theorem upsert_filter_key {tbl : StatesTable} {n s : String}
    (h : (tbl.map Prod.fst).Nodup) :
    (upsert_station_state tbl n s).filter (fun x => x.1 == n) = [(n, s)] := by
  induction tbl with
  | nil => simp [upsert_station_state]
  | cons r tl ih =>
      have h2 : (tl.map Prod.fst).Nodup := (List.nodup_cons.mp h).2
      by_cases hr : r.1 = n
      · have hn : r.1 ∉ tl.map Prod.fst := (List.nodup_cons.mp h).1
        have hrest : ∀ x ∈ tl, ¬ x.1 = n := by
          intro x hx hxn
          exact hn (by rw [hr, ← hxn]; exact List.mem_map_of_mem Prod.fst hx)
        rw [upsert_cons_eq hr hrest]
        have hnil : tl.filter (fun x => x.1 == n) = [] :=
          List.filter_eq_nil_iff.mpr fun a ha => by simp [hrest a ha]
        simp [List.filter_cons, hnil]
      · rw [upsert_cons_ne hr]
        simp [List.filter_cons, hr, ih h2]

/-- A run of events that all carry the `None` state leaves the table
unchanged: every insert fails the NOT NULL constraint and is dropped. -/
theorem drain_none_events (tl : List StateEventRow) :
    ∀ tbl : StatesTable, (∀ e ∈ tl, e.2 = none) →
      state_worker_drain tbl tl = tbl := by
  induction tl with
  | nil => intro tbl _; rfl
  | cons e tl ih =>
      intro tbl h
      have he : e.2 = none := h e (List.mem_cons_self e tl)
      show state_worker_drain (state_worker_insert tbl e.1 e.2) tl = tbl
      have hins : state_worker_insert tbl e.1 e.2 = tbl := by rw [he]; rfl
      rw [hins]
      exact ih tbl (fun x hx => h x (List.mem_cons_of_mem e hx))

/-- Draining a run of events all keyed by one station, at least one of
which carries a non-`None` state, leaves exactly one row for that station,
holding the last successfully persisted (non-`None`) value. -/
theorem drain_filter_key (n : String) (events : List StateEventRow) :
    ∀ (tbl : StatesTable) (last : String),
      (tbl.map Prod.fst).Nodup → (∀ e ∈ events, e.1 = n) →
      (events.filterMap Prod.snd).getLast? = some last →
      (state_worker_drain tbl events).filter (fun x => x.1 == n) = [(n, last)] := by
  induction events with
  | nil => intro tbl last _ _ hlast; simp at hlast
  | cons e tl ih =>
      intro tbl last hnd hall hlast
      have he : e.1 = n := hall e (List.mem_cons_self e tl)
      cases he2 : e.2 with
      | none =>
          have hfm : (e :: tl).filterMap Prod.snd = tl.filterMap Prod.snd := by
            simp [List.filterMap_cons, he2]
          rw [hfm] at hlast
          show (state_worker_drain (state_worker_insert tbl e.1 e.2) tl).filter
              (fun x => x.1 == n) = [(n, last)]
          have hins : state_worker_insert tbl e.1 e.2 = tbl := by rw [he2]; rfl
          rw [hins]
          exact ih tbl last hnd (fun x hx => hall x (List.mem_cons_of_mem e hx)) hlast
      | some v =>
          have hins : state_worker_insert tbl e.1 e.2 = upsert_station_state tbl n v := by
            rw [he2, he]; rfl
          have hfm : (e :: tl).filterMap Prod.snd = v :: tl.filterMap Prod.snd := by
            simp [List.filterMap_cons, he2]
          rw [hfm] at hlast
          show (state_worker_drain (state_worker_insert tbl e.1 e.2) tl).filter
              (fun x => x.1 == n) = [(n, last)]
          rw [hins]
          rcases hft : tl.filterMap Prod.snd with _ | ⟨w, l2⟩
          · rw [hft] at hlast
            simp only [List.getLast?_singleton, Option.some.injEq] at hlast
            subst hlast
            have hallnone : ∀ x ∈ tl, x.2 = none := by
              intro x hx
              cases hx2 : x.2 with
              | none => rfl
              | some u =>
                  exfalso
                  have hu : u ∈ tl.filterMap Prod.snd :=
                    List.mem_filterMap.mpr ⟨x, hx, hx2⟩
                  rw [hft] at hu
                  simp at hu
            rw [drain_none_events tl _ hallnone]
            exact upsert_filter_key hnd
          · rw [hft, List.getLast?_cons_cons] at hlast
            refine ih (upsert_station_state tbl n v) last (upsert_keys_nodup hnd)
              (fun x hx => hall x (List.mem_cons_of_mem e hx)) ?_
            rw [hft]
            exact hlast

/-- C7 counterexample: with a perfectly healthy sink, a `None`-state event
(which the monitor really enqueues, e.g. on a failed read) violates
`station_states.state TEXT NOT NULL`; the worker catches the error and
drops the event, so after `True` then `None` the table still holds the
previous value `True`, not the value of the last State Event processed. -/
theorem none_state_insert_drops_event :
    state_worker_drain [] [("end_module", some "True"), ("end_module", none)]
      = [("end_module", "True")] ∧
    ([("end_module", some "True"), ("end_module", (none : Option String))].getLast
        (by simp)).2 ≠ some "True" ∧
    state_worker_insert [("end_module", "True")] "end_module" none
      = [("end_module", "True")] :=
  ⟨rfl, by simp, rfl⟩

/-- C7 amended: after the state worker processes any finite sequence of
State Events for a given station, at least one of which carries a
non-`None` state, the table holds exactly one row keyed by that station's
name, whose state equals the last non-`None` state in the sequence;
`None`-state events fail the NOT NULL constraint, are dropped by the
worker, and leave the table unchanged — no history accumulates. -/
theorem state_table_upsert_law_amended (tbl : StatesTable) (n : String)
    (events : List StateEventRow)
    (hnd : (tbl.map Prod.fst).Nodup)
    (hall : ∀ e ∈ events, e.1 = n)
    (hne : events.filterMap Prod.snd ≠ []) :
    ((state_worker_drain tbl events).filter (fun x => x.1 == n)).length = 1 ∧
    (state_worker_drain tbl events).filter (fun x => x.1 == n)
      = [(n, (events.filterMap Prod.snd).getLast hne)] ∧
    (∀ (t : StatesTable) (m : String), state_worker_insert t m none = t) := by
  have h := drain_filter_key n events tbl
    ((events.filterMap Prod.snd).getLast hne) hnd hall
    (List.getLast?_eq_getLast _ hne)
  exact ⟨by rw [h]; rfl, h, fun t m => rfl⟩

/-- Witness for the amended C7: `True`, `False`, then a dropped `None`
end as a single row holding `False`. -/
theorem state_table_upsert_law_amended_witness :
    ((state_worker_drain [] [("end_module", some "True"),
        ("end_module", some "False"), ("end_module", none)]).filter
        (fun x => x.1 == "end_module")).length = 1 ∧
    (state_worker_drain [] [("end_module", some "True"),
        ("end_module", some "False"), ("end_module", none)]).filter
        (fun x => x.1 == "end_module")
      = [("end_module", "False")] :=
  ⟨(state_table_upsert_law_amended [] "end_module"
      [("end_module", some "True"), ("end_module", some "False"),
       ("end_module", none)] (by simp) (by decide) (by decide)).1,
   (state_table_upsert_law_amended [] "end_module"
      [("end_module", some "True"), ("end_module", some "False"),
       ("end_module", none)] (by simp) (by decide) (by decide)).2.1⟩

/-- Witness for C9 on a freshly constructed logger state. -/
theorem logging_api_enqueue_only_witness :
    log ⟨⟨0, []⟩, ⟨0, []⟩, false⟩ ⟨1, 2, "o", "p", "q", "r", "s"⟩
      = ⟨⟨0, [⟨1, 2, "o", "p", "q", "r", "s"⟩]⟩, ⟨0, []⟩, false⟩ ∧
    log_station_state ⟨⟨0, []⟩, ⟨0, []⟩, false⟩ "end_module" "True"
      = some ⟨⟨0, []⟩, ⟨0, [("end_module", "True")]⟩, false⟩ :=
  ⟨(logging_api_enqueue_only ⟨⟨0, []⟩, ⟨0, []⟩, false⟩
      ⟨1, 2, "o", "p", "q", "r", "s"⟩ "end_module" "True" rfl rfl).1,
   (logging_api_enqueue_only ⟨⟨0, []⟩, ⟨0, []⟩, false⟩
      ⟨1, 2, "o", "p", "q", "r", "s"⟩ "end_module" "True" rfl rfl).2.1⟩

end PGLogger


